import Mathlib

/-!
Verification of the language-toolchain core of `ranaldmiao/cms`.

The development shallowly embeds:
* `cms/grading/languages/java8_jdk.py` — the `Java8JDK` language class:
  `get_compilation_commands`, `get_evaluation_commands`, together with
  Python's `shlex.quote` (imported there as `shell_quote`);
* `cms/cms/db/Contest.py` — `Contest.export_to_dict` and
  `Announcement.export_to_dict`.

Python strings are Lean `String`s.  Python `None` occurring as a list
element (the `main` parameter is spliced into the evaluation command
unchanged, possibly `None`) is modelled by using `Option String` for the
tokens of evaluation commands.  The Python functions raise no exceptions,
so they are embedded as total functions.
-/

/-! ## `shlex.quote` (imported as `shell_quote` in `java8_jdk.py`) -/

/-- The single-quote character, written by code point to keep source lines
free of quote literals. -/
def squoteChar : Char := Char.ofNat 39

/-- The double-quote character. -/
def dquoteChar : Char := Char.ofNat 34

/-- Characters that `shlex.quote` leaves unquoted: the ASCII word
characters together with `@ % + = : , . /` and the hyphen (the complement
of the `_find_unsafe` regular expression of `shlex`). -/
def isSafeChar (c : Char) : Bool :=
  (97 ≤ c.toNat && c.toNat ≤ 122) || (65 ≤ c.toNat && c.toNat ≤ 90) ||
  (48 ≤ c.toNat && c.toNat ≤ 57) ||
  c = '_' || c = '@' || c = '%' || c = '+' || c = '=' || c = ':' ||
  c = ',' || c = '.' || c = '/' || c = '-'

/-- `s.replace("'", "'\"'\"'")` of `shlex.quote`, character by character:
each single quote becomes close-quote, double-quoted quote, reopen-quote. -/
def expandQuotes : List Char → List Char
  | [] => []
  | c :: cs =>
      (if c = squoteChar then
        [squoteChar, dquoteChar, squoteChar, dquoteChar, squoteChar]
      else [c]) ++ expandQuotes cs

/-- `shlex.quote` on the character list of the string: empty strings become
a pair of single quotes, fully safe strings pass through, anything else is
wrapped in single quotes with inner quotes expanded. -/
def shellQuoteList (s : List Char) : List Char :=
  if s = [] then [squoteChar, squoteChar]
  else if s.all isSafeChar then s
  else squoteChar :: expandQuotes s ++ [squoteChar]

/-- `shell_quote` (Python `shlex.quote`) on strings. -/
def shell_quote (s : String) : String := String.mk (shellQuoteList s.toList)

/-! ## `Java8JDK` (from `cms/grading/languages/java8_jdk.py`) -/

/-- The static class attribute `Java8JDK.USE_JAR = True`. -/
def USE_JAR : Bool := true

/-- `Java8JDK.source_extensions` property. -/
def source_extensions : List String := [".java"]

/-- `Java8JDK.requires_multithreading` property. -/
def requires_multithreading : Bool := true

/-- `Java8JDK.get_compilation_commands(source_filenames, executable_filename,
for_evaluation=True)`.  The `for_evaluation` flag is accepted and ignored,
exactly as in the source.  Returns the compile command (the JVM `bin`
directory path literal from the source followed by the source filenames)
and the packaging command, a `/bin/sh -c` invocation of the line built by
`" ".join(...)` (`String.intercalate " "`). -/
def get_compilation_commands (source_filenames : List String)
    (executable_filename : String) (for_evaluation : Bool) :
    List (List String) :=
  let _ := for_evaluation
  let compile_command := ["/usr/lib/jvm/java-8-openjdk-amd64/bin"] ++ source_filenames
  if USE_JAR then
    let jar_command := ["/bin/sh", "-c",
      String.intercalate " " ["jar", "cf",
        shell_quote executable_filename, "*.class"]]
    [compile_command, jar_command]
  else
    let zip_command := ["/bin/sh", "-c",
      String.intercalate " " ["zip", "-r", "-", "*.class", ">",
        shell_quote executable_filename]]
    [compile_command, zip_command]

/-- `Java8JDK.get_evaluation_commands(executable_filename, main=None,
args=None)`.  `main` may be Python `None`, and is spliced into the command
unchanged, so evaluation-command tokens are `Option String` (`none` is
Python `None`, `some s` a string token).  `args=None` defaults to `[]` via
`args = args if args is not None else []`. -/
def get_evaluation_commands (executable_filename : String)
    (main : Option String) (args : Option (List String)) :
    List (List (Option String)) :=
  let args := args.getD []
  if USE_JAR then
    [[some "/usr/lib/jvm/java-8-openjdk-amd64/bin/java", some "-Deval=true",
      some "-Xmx1000M", some "-Xss1000M",
      some "-Xbatch", some "-XX:+UseSerialGC", some "-XX:-TieredCompilation",
      some "-XX:CICompilerCount=1", some "-cp", some executable_filename,
      main] ++ args.map some]
  else
    let unzip_command := [some "/usr/bin/unzip", some executable_filename]
    let command := [some "/usr/lib/jvm/java-8-openjdk-amd64/bin/java",
      some "-Deval=true", some "-Xmx1000M", some "-Xss1000M",
      some "-Xbatch", some "-XX:+UseSerialGC", some "-XX:-TieredCompilation",
      some "-XX:CICompilerCount=1", main] ++ args.map some
    [unzip_command, command]

/-! ## A POSIX shell word splitter

Used to state that the composed packaging line is syntactically valid and
that the quoted destination parses back as a single word.  It covers the
constructs `shlex.quote` output can contain: bare words, single-quoted
segments (everything literal up to the closing quote) and double-quoted
segments (which, in quoted output, only ever hold a single-quote
character), with unquoted blanks separating words.  An unterminated quote
is a syntax error (`none`). -/

/-- Lexer mode: outside quotes, inside single quotes, inside double quotes. -/
inductive ShMode where
  | norm : ShMode
  | inSingle : ShMode
  | inDouble : ShMode
deriving DecidableEq

/-- Unquoted word separators. -/
def isBlankChar (c : Char) : Bool :=
  c = ' ' || c = Char.ofNat 9 || c = Char.ofNat 10

/-- Split a character list into shell words.  `acc` holds the current
word reversed, `started` whether a word (possibly empty, from a quoted
empty string) is in progress. -/
def shlexSplit : List Char → ShMode → List Char → Bool → Option (List String)
  | [], .norm, acc, started =>
      some (if started then [String.mk acc.reverse] else [])
  | [], .inSingle, _, _ => none
  | [], .inDouble, _, _ => none
  | c :: cs, .norm, acc, started =>
      if c = squoteChar then shlexSplit cs .inSingle acc true
      else if c = dquoteChar then shlexSplit cs .inDouble acc true
      else if isBlankChar c then
        if started then
          (shlexSplit cs .norm [] false).map (fun ws => String.mk acc.reverse :: ws)
        else shlexSplit cs .norm [] false
      else shlexSplit cs .norm (c :: acc) true
  | c :: cs, .inSingle, acc, started =>
      if c = squoteChar then shlexSplit cs .norm acc started
      else shlexSplit cs .inSingle (c :: acc) started
  | c :: cs, .inDouble, acc, started =>
      if c = dquoteChar then shlexSplit cs .norm acc started
      else shlexSplit cs .inDouble (c :: acc) started

/-- A file-safe string: non-empty and made only of characters that
`shlex.quote` treats as safe. -/
def isFileSafe (s : String) : Bool :=
  !s.toList.isEmpty && s.toList.all isSafeChar

/-! ## `Contest` (from `cms/cms/db/Contest.py`)

Wrapped in a namespace because `Task` would otherwise collide with the
core library. -/

namespace CmsDb

/-- Python values appearing in exported dictionaries. -/
inductive PyVal where
  | pyNull : PyVal
  | pyInt : Int → PyVal
  | pyStr : String → PyVal
  | pyList : List PyVal → PyVal
  | pyDict : List (String × PyVal) → PyVal

/-- A nullable string column. -/
def pyOptStr : Option String → PyVal
  | Option.none => .pyNull
  | Option.some s => .pyStr s

/-- A nullable integer column. -/
def pyOptInt : Option Int → PyVal
  | Option.none => .pyNull
  | Option.some n => .pyInt n

/-- Modelled from the spec: the `Task` class is outside the given sources
(contest/task metadata storage is an external collaborator); only the
dictionary its `export_to_dict` returns is consumed by
`Contest.export_to_dict`, so a task is represented by that dictionary. -/
structure Task where
  export_to_dict : List (String × PyVal)

/-- Modelled from the spec: the `User` class is outside the given sources;
a user is represented by the dictionary its `export_to_dict` returns. -/
structure User where
  export_to_dict : List (String × PyVal)

/-- Modelled from the spec: the `RankingView` class is outside the given
sources; it is represented by the dictionary its `export_to_dict`
returns. -/
structure RankingView where
  export_to_dict : List (String × PyVal)

/-- The `Announcement` mapped class: its scalar columns. -/
structure Announcement where
  timestamp : Int
  subject : String
  text : String

/-- `Announcement.export_to_dict`. -/
def Announcement.export_to_dict (a : Announcement) : List (String × PyVal) :=
  [("timestamp", .pyInt a.timestamp),
   ("subject", .pyStr a.subject),
   ("text", .pyStr a.text)]

/-- The `Contest` mapped class: its columns and SQLAlchemy-added
relationship attributes, as set up by `__init__`. -/
structure Contest where
  name : String
  description : Option String
  tasks : List Task
  users : List User
  token_initial : Int
  token_max : Int
  token_total : Int
  token_min_interval : Int
  token_gen_time : Int
  token_gen_number : Int
  start : Option Int
  stop : Option Int
  announcements : List Announcement
  ranking_view : RankingView

/-- `Contest.export_to_dict`: the dictionary literal of the source, as an
ordered key-value list. -/
def Contest.export_to_dict (c : Contest) : List (String × PyVal) :=
  [("name", .pyStr c.name),
   ("description", pyOptStr c.description),
   ("tasks", .pyList (c.tasks.map (fun t => .pyDict t.export_to_dict))),
   ("users", .pyList (c.users.map (fun u => .pyDict u.export_to_dict))),
   ("token_initial", .pyInt c.token_initial),
   ("token_max", .pyInt c.token_max),
   ("token_min_interval", .pyInt c.token_min_interval),
   ("token_gen_time", .pyInt c.token_gen_time),
   ("token_gen_number", .pyInt c.token_gen_number),
   ("start", pyOptInt c.start),
   ("stop", pyOptInt c.stop),
   ("announcements",
     .pyList (c.announcements.map (fun a => .pyDict a.export_to_dict))),
   ("ranking_view", .pyDict c.ranking_view.export_to_dict)]

end CmsDb

/-! ## Lemmas about quoting and splitting -/

/-- A safe character is not a quote and not a blank. -/
lemma isSafeChar_not_special {c : Char} (h : isSafeChar c = true) :
    ¬c = squoteChar ∧ ¬c = dquoteChar ∧ isBlankChar c = false := by
  refine ⟨?_, ?_, ?_⟩
  · rintro rfl; revert h; decide
  · rintro rfl; revert h; decide
  · by_contra hb
    rw [Bool.not_eq_false] at hb
    simp only [isBlankChar, Bool.or_eq_true, decide_eq_true_eq] at hb
    rcases hb with (h1 | h1) | h1 <;> (subst h1; revert h; decide)

/-- Lexer step: a single quote in normal mode enters single-quote mode. -/
lemma shlexSplit_norm_squote (cs acc : List Char) (b : Bool) :
    shlexSplit (squoteChar :: cs) .norm acc b
      = shlexSplit cs .inSingle acc true := by
  simp [shlexSplit]

/-- Lexer step: a double quote in normal mode enters double-quote mode. -/
lemma shlexSplit_norm_dquote (cs acc : List Char) (b : Bool) :
    shlexSplit (dquoteChar :: cs) .norm acc b
      = shlexSplit cs .inDouble acc true := by
  have h : ¬dquoteChar = squoteChar := by decide
  simp [shlexSplit, if_neg h]

/-- Lexer step: an ordinary character in normal mode joins the word. -/
lemma shlexSplit_norm_char {c : Char} (h1 : ¬c = squoteChar)
    (h2 : ¬c = dquoteChar) (h3 : isBlankChar c = false)
    (cs acc : List Char) (b : Bool) :
    shlexSplit (c :: cs) .norm acc b
      = shlexSplit cs .norm (c :: acc) true := by
  simp [shlexSplit, if_neg h1, if_neg h2, h3]

/-- Lexer step: a blank in normal mode with a word in progress emits it. -/
lemma shlexSplit_norm_blank {c : Char} (h : isBlankChar c = true)
    (cs acc : List Char) :
    shlexSplit (c :: cs) .norm acc true
      = (shlexSplit cs .norm [] false).map
          (fun ws => String.mk acc.reverse :: ws) := by
  obtain ⟨h1, h2⟩ : ¬c = squoteChar ∧ ¬c = dquoteChar := by
    constructor <;> (rintro rfl; revert h; decide)
  simp [shlexSplit, if_neg h1, if_neg h2, h]

/-- Lexer step: a single quote in single-quote mode returns to normal. -/
lemma shlexSplit_single_squote (cs acc : List Char) (b : Bool) :
    shlexSplit (squoteChar :: cs) .inSingle acc b
      = shlexSplit cs .norm acc b := by
  simp [shlexSplit]

/-- Lexer step: any other character in single-quote mode is literal. -/
lemma shlexSplit_single_char {c : Char} (h : ¬c = squoteChar)
    (cs acc : List Char) (b : Bool) :
    shlexSplit (c :: cs) .inSingle acc b
      = shlexSplit cs .inSingle (c :: acc) b := by
  simp [shlexSplit, if_neg h]

/-- Lexer step: a double quote in double-quote mode returns to normal. -/
lemma shlexSplit_double_dquote (cs acc : List Char) (b : Bool) :
    shlexSplit (dquoteChar :: cs) .inDouble acc b
      = shlexSplit cs .norm acc b := by
  simp [shlexSplit]

/-- Lexer step: any other character in double-quote mode is literal. -/
lemma shlexSplit_double_char {c : Char} (h : ¬c = dquoteChar)
    (cs acc : List Char) (b : Bool) :
    shlexSplit (c :: cs) .inDouble acc b
      = shlexSplit cs .inDouble (c :: acc) b := by
  simp [shlexSplit, if_neg h]

/-- Consuming a run of safe characters in normal mode accumulates them
into the current word. -/
lemma shlexSplit_safe_run (s : List Char) (hs : s.all isSafeChar = true) :
    ∀ (rest acc : List Char) (b : Bool),
    shlexSplit (s ++ rest) .norm acc b
      = shlexSplit rest .norm (s.reverse ++ acc) (b || !s.isEmpty) := by
  induction s with
  | nil => intro rest acc b; simp
  | cons c cs ih =>
    intro rest acc b
    simp only [List.all_cons, Bool.and_eq_true] at hs
    obtain ⟨hc, hcs⟩ := hs
    obtain ⟨h1, h2, h3⟩ := isSafeChar_not_special hc
    rw [List.cons_append, shlexSplit_norm_char h1 h2 h3, ih hcs rest (c :: acc) true]
    simp [List.append_assoc]

/-- Consuming the quote-expanded body of a string inside single quotes
accumulates exactly the original characters. -/
lemma shlexSplit_expandQuotes (s : List Char) :
    ∀ (rest acc : List Char),
    shlexSplit (expandQuotes s ++ rest) .inSingle acc true
      = shlexSplit rest .inSingle (s.reverse ++ acc) true := by
  induction s with
  | nil => intro rest acc; simp [expandQuotes]
  | cons c cs ih =>
    intro rest acc
    have hqq : ¬squoteChar = dquoteChar := by decide
    by_cases hc : c = squoteChar
    · subst hc
      have hexp : expandQuotes (squoteChar :: cs)
          = squoteChar :: dquoteChar :: squoteChar :: dquoteChar ::
            squoteChar :: expandQuotes cs := by
        simp [expandQuotes]
      rw [hexp, List.cons_append, List.cons_append, List.cons_append,
        List.cons_append, List.cons_append,
        shlexSplit_single_squote, shlexSplit_norm_dquote,
        shlexSplit_double_char hqq, shlexSplit_double_dquote,
        shlexSplit_norm_squote, ih rest (squoteChar :: acc)]
      simp [List.append_assoc]
    · have hexp : expandQuotes (c :: cs) = c :: expandQuotes cs := by
        simp [expandQuotes, hc]
      rw [hexp, List.cons_append, shlexSplit_single_char hc, ih rest (c :: acc)]
      simp [List.append_assoc]

/-- Consuming a `shlex`-quoted string in normal mode yields exactly the
original characters as part of the current word, for every string. -/
lemma shlexSplit_shellQuoteList (e : List Char) (rest acc : List Char) (b : Bool) :
    shlexSplit (shellQuoteList e ++ rest) .norm acc b
      = shlexSplit rest .norm (e.reverse ++ acc) true := by
  by_cases he : e = []
  · subst he
    rw [show shellQuoteList [] = [squoteChar, squoteChar] from rfl,
      List.cons_append, List.cons_append, List.nil_append,
      shlexSplit_norm_squote, shlexSplit_single_squote]
    rfl
  · by_cases hsafe : e.all isSafeChar
    · have hq : shellQuoteList e = e := by simp [shellQuoteList, he, hsafe]
      rw [hq, shlexSplit_safe_run e hsafe rest acc b]
      have hne : e.isEmpty = false := by
        cases e with
        | nil => exact absurd rfl he
        | cons x xs => rfl
      simp [hne]
    · have hq : shellQuoteList e
          = (squoteChar :: expandQuotes e) ++ [squoteChar] := by
        simp [shellQuoteList, he, hsafe]
      rw [hq, List.append_assoc, List.cons_append, shlexSplit_norm_squote,
        shlexSplit_expandQuotes e ([squoteChar] ++ rest) acc,
        List.singleton_append, shlexSplit_single_squote]

/-- `String.toList` distributes over append. -/
lemma toList_append (s t : String) : (s ++ t).toList = s.toList ++ t.toList :=
  String.data_append s t

/-- The composed packaging line of the jar branch splits into exactly four
shell words: `jar`, `cf`, the original destination string, and the
wildcard — for every destination string. -/
lemma shlexSplit_jarLine (exe : String) :
    shlexSplit (String.intercalate " "
        ["jar", "cf", shell_quote exe, "*.class"]).toList .norm [] false
      = some ["jar", "cf", exe, "*.class"] := by
  have hline : (String.intercalate " "
      ["jar", "cf", shell_quote exe, "*.class"]).toList
      = 'j' :: 'a' :: 'r' :: ' ' :: 'c' :: 'f' :: ' ' ::
        (shellQuoteList exe.toList ++
          (' ' :: ('*' :: '.' :: 'c' :: 'l' :: 'a' :: 's' :: 's' :: []))) := by
    rw [show String.intercalate " " ["jar", "cf", shell_quote exe, "*.class"]
        = "jar" ++ " " ++ "cf" ++ " " ++ shell_quote exe ++ " " ++ "*.class"
        from rfl]
    simp only [toList_append, List.append_assoc]
    rfl
  rw [hline,
    shlexSplit_norm_char (c := 'j') (by decide) (by decide) (by decide),
    shlexSplit_norm_char (c := 'a') (by decide) (by decide) (by decide),
    shlexSplit_norm_char (c := 'r') (by decide) (by decide) (by decide),
    shlexSplit_norm_blank (c := ' ') (by decide),
    shlexSplit_norm_char (c := 'c') (by decide) (by decide) (by decide),
    shlexSplit_norm_char (c := 'f') (by decide) (by decide) (by decide),
    shlexSplit_norm_blank (c := ' ') (by decide),
    shlexSplit_shellQuoteList exe.toList,
    shlexSplit_norm_blank (c := ' ') (by decide),
    show shlexSplit ('*' :: '.' :: 'c' :: 'l' :: 'a' :: 's' :: 's' :: [])
      .norm [] false = some ["*.class"] from by decide]
  simp only [Option.map_some', List.append_nil, List.reverse_reverse]
  rfl

/-- `shlex.quote` is the identity on file-safe strings. -/
lemma shell_quote_fileSafe {s : String} (h : isFileSafe s = true) :
    shell_quote s = s := by
  simp only [isFileSafe, Bool.and_eq_true] at h
  obtain ⟨h1, h2⟩ := h
  have hne : s.toList ≠ [] := by
    intro hnil
    rw [hnil] at h1
    simp at h1
  show String.mk (shellQuoteList s.toList) = s
  rw [shellQuoteList, if_neg hne, if_pos h2]
  exact rfl

/-! ## Claim theorems -/

/-- C1: for the archive-bundle (jar) descriptor and every non-empty list of
source filenames and every executable filename, `get_compilation_commands`
returns exactly two stages: first the compile stage whose argument tokens
are the source filenames in order, then a packaging stage of the form
`[/bin/sh, -c, line]` in which the destination appears shell-quoted. -/
theorem compilation_pipeline_two_stages (srcs : List String) (exe : String)
    (fe : Bool) (_h : srcs ≠ []) :
    (get_compilation_commands srcs exe fe).length = 2
    ∧ get_compilation_commands srcs exe fe
      = [["/usr/lib/jvm/java-8-openjdk-amd64/bin"] ++ srcs,
         ["/bin/sh", "-c",
          String.intercalate " " ["jar", "cf", shell_quote exe, "*.class"]]] :=
  ⟨rfl, rfl⟩

/-- Witness for C1 at `source_filenames = [Main.java]`,
`executable_filename = sol.jar`. -/
theorem compilation_pipeline_two_stages_witness :
    (["Main.java"] : List String) ≠ []
    ∧ ((get_compilation_commands ["Main.java"] "sol.jar" true).length = 2
       ∧ get_compilation_commands ["Main.java"] "sol.jar" true
         = [["/usr/lib/jvm/java-8-openjdk-amd64/bin"] ++ ["Main.java"],
            ["/bin/sh", "-c",
             String.intercalate " "
               ["jar", "cf", shell_quote "sol.jar", "*.class"]]]) :=
  ⟨by decide, compilation_pipeline_two_stages ["Main.java"] "sol.jar" true (by decide)⟩

/-- C2: the first token of the compile stage is the JVM `bin` directory
path, not the path of the Java compiler executable (`javac` is missing
from it), so the stage's token 0 does not name the compiler program. -/
theorem compile_stage_head_is_bin_directory :
    ((get_compilation_commands ["Main.java"] "sol.jar" true).get? 0).bind
        List.head? = some "/usr/lib/jvm/java-8-openjdk-amd64/bin"
    ∧ "/usr/lib/jvm/java-8-openjdk-amd64/bin"
        ≠ "/usr/lib/jvm/java-8-openjdk-amd64/bin/javac" := by
  constructor
  · rfl
  · decide

/-- C3 counterexample: with an absent (`None`) `main`, the code does not
fail — it returns a non-empty single-stage pipeline embedding `None` as
the token after `-cp executable_filename`. -/
theorem evaluation_none_main_returns_pipeline :
    get_evaluation_commands "sol.jar" Option.none Option.none
      = [[some "/usr/lib/jvm/java-8-openjdk-amd64/bin/java", some "-Deval=true",
          some "-Xmx1000M", some "-Xss1000M", some "-Xbatch",
          some "-XX:+UseSerialGC", some "-XX:-TieredCompilation",
          some "-XX:CICompilerCount=1", some "-cp", some "sol.jar",
          Option.none]]
    ∧ get_evaluation_commands "sol.jar" Option.none Option.none ≠ [] := by
  constructor
  · rfl
  · decide

/-- C3 amended: with an empty or absent `main`, `get_evaluation_commands`
raises nothing and returns exactly one stage, with the empty/absent entry
point spliced in unchanged before the arguments. -/
theorem evaluation_empty_main_single_stage (exe : String) (m : Option String)
    (a : Option (List String)) (_h : m = Option.none ∨ m = some "") :
    get_evaluation_commands exe m a
      = [[some "/usr/lib/jvm/java-8-openjdk-amd64/bin/java", some "-Deval=true",
          some "-Xmx1000M", some "-Xss1000M", some "-Xbatch",
          some "-XX:+UseSerialGC", some "-XX:-TieredCompilation",
          some "-XX:CICompilerCount=1", some "-cp", some exe, m]
          ++ (a.getD []).map some] :=
  rfl

/-- Witness for the amended C3 at `executable_filename = sol.jar`,
`main = None`, `args = None`. -/
theorem evaluation_empty_main_single_stage_witness :
    ((Option.none : Option String) = Option.none
      ∨ (Option.none : Option String) = some "")
    ∧ get_evaluation_commands "sol.jar" Option.none Option.none
      = [[some "/usr/lib/jvm/java-8-openjdk-amd64/bin/java", some "-Deval=true",
          some "-Xmx1000M", some "-Xss1000M", some "-Xbatch",
          some "-XX:+UseSerialGC", some "-XX:-TieredCompilation",
          some "-XX:CICompilerCount=1", some "-cp", some "sol.jar",
          Option.none]
          ++ ((Option.none : Option (List String)).getD []).map some] :=
  ⟨Or.inl rfl,
   evaluation_empty_main_single_stage "sol.jar" Option.none Option.none (Or.inl rfl)⟩

/-- C4 counterexample: a source filename whose extension is not in
`source_extensions` (here `main.cpp`) does not make the call fail — the
full two-stage pipeline is still returned. -/
theorem compilation_no_extension_check :
    source_extensions = [".java"]
    ∧ (".java".toList.isSuffixOf "main.cpp".toList) = false
    ∧ get_compilation_commands ["main.cpp"] "sol.jar" true
      = [["/usr/lib/jvm/java-8-openjdk-amd64/bin", "main.cpp"],
         ["/bin/sh", "-c",
          String.intercalate " " ["jar", "cf", shell_quote "sol.jar", "*.class"]]] := by
  refine ⟨rfl, ?_, rfl⟩
  decide

/-- C4 amended: `get_compilation_commands` performs no extension
validation at all: for every source list (whatever the extensions) it
returns the full two-stage pipeline. -/
theorem compilation_total_no_validation (srcs : List String) (exe : String)
    (fe : Bool) :
    get_compilation_commands srcs exe fe
      = [["/usr/lib/jvm/java-8-openjdk-amd64/bin"] ++ srcs,
         ["/bin/sh", "-c",
          String.intercalate " " ["jar", "cf", shell_quote exe, "*.class"]]] :=
  rfl

/-- C5: with a non-empty `main` and any argument list, the evaluation
pipeline is exactly one stage invoking the Java runtime with the archive
after `-cp` and `main` as the unit to run, and the tokens after the fixed
11-token head are exactly the supplied arguments in order. -/
theorem evaluation_single_stage_args_in_order (exe mainCls : String)
    (args : List String) (_h : mainCls ≠ "") :
    get_evaluation_commands exe (some mainCls) (some args)
      = [[some "/usr/lib/jvm/java-8-openjdk-amd64/bin/java", some "-Deval=true",
          some "-Xmx1000M", some "-Xss1000M", some "-Xbatch",
          some "-XX:+UseSerialGC", some "-XX:-TieredCompilation",
          some "-XX:CICompilerCount=1", some "-cp", some exe, some mainCls]
          ++ args.map some]
    ∧ (get_evaluation_commands exe (some mainCls) (some args)).map
        (List.drop 11) = [args.map some] :=
  ⟨rfl, rfl⟩

/-- Witness for C5 at `main = Main`, `arguments = [5, 3]`. -/
theorem evaluation_single_stage_args_in_order_witness :
    ("Main" : String) ≠ ""
    ∧ (get_evaluation_commands "sol.jar" (some "Main") (some ["5", "3"])
        = [[some "/usr/lib/jvm/java-8-openjdk-amd64/bin/java", some "-Deval=true",
            some "-Xmx1000M", some "-Xss1000M", some "-Xbatch",
            some "-XX:+UseSerialGC", some "-XX:-TieredCompilation",
            some "-XX:CICompilerCount=1", some "-cp", some "sol.jar",
            some "Main"] ++ (["5", "3"] : List String).map some]
       ∧ (get_evaluation_commands "sol.jar" (some "Main") (some ["5", "3"])).map
           (List.drop 11) = [(["5", "3"] : List String).map some]) :=
  ⟨by decide,
   evaluation_single_stage_args_in_order "sol.jar" "Main" ["5", "3"] (by decide)⟩

/-- C6: two evaluation calls differing only in the argument list agree on
everything before the appended arguments — the fixed 11-token head, which
carries the heap ceiling, stack ceiling, serial-GC selection,
tiered-compilation disabling and compiler-thread-count flags. -/
theorem evaluation_resource_flags_stable (exe : String) (m : Option String)
    (a1 a2 : List String) :
    (get_evaluation_commands exe m (some a1)).map (List.take 11)
      = (get_evaluation_commands exe m (some a2)).map (List.take 11)
    ∧ (get_evaluation_commands exe m (some a1)).map (List.take 11)
      = [[some "/usr/lib/jvm/java-8-openjdk-amd64/bin/java", some "-Deval=true",
          some "-Xmx1000M", some "-Xss1000M", some "-Xbatch",
          some "-XX:+UseSerialGC", some "-XX:-TieredCompilation",
          some "-XX:CICompilerCount=1", some "-cp", some exe, m]] :=
  ⟨rfl, rfl⟩

/-- C7: the packaging stage is a shell invocation whose composed line is
syntactically valid and splits into four words with the destination as a
single word for every destination string (spaces and quotes included);
and the quoting function is idempotent and injective on file-safe
strings. -/
theorem packaging_quoting_sound (srcs : List String) (exe s t : String)
    (fe : Bool) (hs : isFileSafe s = true) (ht : isFileSafe t = true) :
    (get_compilation_commands srcs exe fe).get? 1
      = some ["/bin/sh", "-c",
          String.intercalate " " ["jar", "cf", shell_quote exe, "*.class"]]
    ∧ shlexSplit (String.intercalate " "
        ["jar", "cf", shell_quote exe, "*.class"]).toList .norm [] false
      = some ["jar", "cf", exe, "*.class"]
    ∧ shell_quote (shell_quote s) = shell_quote s
    ∧ (shell_quote s = shell_quote t → s = t) := by
  refine ⟨rfl, shlexSplit_jarLine exe, ?_, ?_⟩
  · rw [shell_quote_fileSafe hs]
    exact shell_quote_fileSafe hs
  · intro he
    rw [shell_quote_fileSafe hs, shell_quote_fileSafe ht] at he
    exact he

/-- Witness for C7 at a destination containing a space and a single
quote, and file-safe strings `a`, `b`. -/
theorem packaging_quoting_sound_witness :
    isFileSafe "a" = true
    ∧ isFileSafe "b" = true
    ∧ ((get_compilation_commands []
          (String.mk ['m', 'y', ' ', Char.ofNat 39, 's', Char.ofNat 39]) true).get? 1
        = some ["/bin/sh", "-c",
            String.intercalate " " ["jar", "cf",
              shell_quote (String.mk ['m', 'y', ' ', Char.ofNat 39, 's', Char.ofNat 39]),
              "*.class"]]
       ∧ shlexSplit (String.intercalate " "
           ["jar", "cf",
            shell_quote (String.mk ['m', 'y', ' ', Char.ofNat 39, 's', Char.ofNat 39]),
            "*.class"]).toList .norm [] false
         = some ["jar", "cf",
             String.mk ['m', 'y', ' ', Char.ofNat 39, 's', Char.ofNat 39], "*.class"]
       ∧ shell_quote (shell_quote "a") = shell_quote "a"
       ∧ (shell_quote "a" = shell_quote "b" → "a" = "b")) :=
  ⟨by decide, by decide,
   packaging_quoting_sound []
     (String.mk ['m', 'y', ' ', Char.ofNat 39, 's', Char.ofNat 39]) "a" "b" true
     (by decide) (by decide)⟩

/-- C8: only the packaging stage is a shell-interpreter invocation — the
compile stage's token 0 is not `/bin/sh` — every source filename is a
discrete argument token of the compile stage, and the packaging stage
(its shell string included) does not depend on the source filenames at
all. -/
theorem no_shell_injection_from_sources (srcs srcs2 : List String)
    (exe : String) (fe fe2 : Bool) :
    (get_compilation_commands srcs exe fe).length = 2
    ∧ (get_compilation_commands srcs exe fe).get? 0
        = some (["/usr/lib/jvm/java-8-openjdk-amd64/bin"] ++ srcs)
    ∧ "/usr/lib/jvm/java-8-openjdk-amd64/bin" ≠ "/bin/sh"
    ∧ ((get_compilation_commands srcs exe fe).get? 1).bind List.head?
        = some "/bin/sh"
    ∧ (get_compilation_commands srcs exe fe).get? 1
        = (get_compilation_commands srcs2 exe fe2).get? 1 := by
  refine ⟨rfl, rfl, ?_, rfl, rfl⟩
  decide

/-- Witness for C8 at two different source lists. -/
theorem no_shell_injection_from_sources_witness :
    (get_compilation_commands ["A.java"] "sol.jar" true).length = 2
    ∧ (get_compilation_commands ["A.java"] "sol.jar" true).get? 0
        = some (["/usr/lib/jvm/java-8-openjdk-amd64/bin"] ++ ["A.java"])
    ∧ "/usr/lib/jvm/java-8-openjdk-amd64/bin" ≠ "/bin/sh"
    ∧ ((get_compilation_commands ["A.java"] "sol.jar" true).get? 1).bind
        List.head? = some "/bin/sh"
    ∧ (get_compilation_commands ["A.java"] "sol.jar" true).get? 1
        = (get_compilation_commands ["B.java", "C.java"] "sol.jar" false).get? 1 :=
  no_shell_injection_from_sources ["A.java"] ["B.java", "C.java"] "sol.jar" true false

/-- C9: omitting the argument list (Python `None`) yields exactly the same
pipeline as passing an empty list. -/
theorem evaluation_none_args_eq_empty (exe : String) (m : Option String) :
    get_evaluation_commands exe m Option.none
      = get_evaluation_commands exe m (some []) :=
  rfl

/-- C10: the exported contest dictionary has exactly the thirteen listed
keys, in order, and `token_total` is not among them. -/
theorem contest_export_keys (c : CmsDb.Contest) :
    (CmsDb.Contest.export_to_dict c).map Prod.fst
      = ["name", "description", "tasks", "users", "token_initial", "token_max",
         "token_min_interval", "token_gen_time", "token_gen_number", "start",
         "stop", "announcements", "ranking_view"]
    ∧ "token_total" ∉ (CmsDb.Contest.export_to_dict c).map Prod.fst := by
  refine ⟨rfl, ?_⟩
  rw [show (CmsDb.Contest.export_to_dict c).map Prod.fst
      = ["name", "description", "tasks", "users", "token_initial", "token_max",
         "token_min_interval", "token_gen_time", "token_gen_number", "start",
         "stop", "announcements", "ranking_view"] from rfl]
  decide

/-- Witness for C10 at a concrete empty contest. -/
theorem contest_export_keys_witness :
    (CmsDb.Contest.export_to_dict
        ⟨"c", Option.none, [], [], 0, 0, 0, 0, 60, 1, Option.none, Option.none,
         [], ⟨[]⟩⟩).map Prod.fst
      = ["name", "description", "tasks", "users", "token_initial", "token_max",
         "token_min_interval", "token_gen_time", "token_gen_number", "start",
         "stop", "announcements", "ranking_view"]
    ∧ "token_total" ∉ (CmsDb.Contest.export_to_dict
        ⟨"c", Option.none, [], [], 0, 0, 0, 0, 60, 1, Option.none, Option.none,
         [], ⟨[]⟩⟩).map Prod.fst :=
  contest_export_keys
    ⟨"c", Option.none, [], [], 0, 0, 0, 0, 60, 1, Option.none, Option.none,
     [], ⟨[]⟩⟩
